import Mathlib

/-!
Shallow embedding of the voice-journal app (`src/App.tsx`, `src/src/components/NoteItem`,
`src/src/components/RecorderModal.js`).

The app keeps a flat list of note records (`notes` state), mirrors every mutation to a
key-value store (`AsyncStorage` under `STORAGE_KEY`), owns the audio files in the
`voiceNotes/` subdirectory of the document directory, and drives a single global
playback handle (`soundRef` / `playingId` / `progress` / `rate`).

State is embedded as an explicit record (`AppState`); the `expo-av` / `expo-file-system`
side effects are embedded as a trace of events (`Ev`) so that ordering claims
("stop A before loading B") and resource claims ("never two sounds loaded") can be
stated.  File-system success/failure of `moveAsync` / `copyAsync` is an explicit
environment flag (`AddEnv`), since the code branches on those exceptions.
JavaScript `Array.prototype.sort` with the comparator `(a, b) => b.createdAt - a.createdAt`
is a stable sort by descending `createdAt`; it is embedded as the stable insertion sort
`List.insertionSort` with relation `noteLe`.
-/

namespace VoiceJournal

/-- A persisted note record (`src/types` / the object literal built in
`addNoteFromRecording`). -/
structure Note where
  id : String
  title : String
  uri : String
  createdAt : Nat
  duration : Nat
  deriving Repr, DecidableEq

/-- The loaded `expo-av` sound object held in `soundRef`.  `isLoaded` mirrors
`status.isLoaded`; `rate` the rate it was created / last updated with. -/
structure Sound where
  uri : String
  isLoaded : Bool
  rate : ℚ
  deriving Repr, DecidableEq

/-- The mutable state of the `App` component: the `notes` state, the persisted blob
(`storage`, the value under `STORAGE_KEY`), the file system (`files`, the set of
existing paths), the playback handle (`sound`, `playingId`, `progress`) and the
stored playback `rate`.  `docDir` is `FileSystem.documentDirectory` (opaque). -/
structure AppState where
  docDir : String
  notes : List Note
  storage : List Note
  files : List String
  sound : Option Sound
  playingId : Option String
  progress : ℚ
  rate : ℚ
  deriving Repr, DecidableEq

/-- `VOICE_DIR = FileSystem.documentDirectory + "voiceNotes/"`. -/
def voiceDir (st : AppState) : String := st.docDir ++ "voiceNotes/"

/-- Observable side effects, in program order. -/
inductive Ev where
  | getStatus
  | stopSound (uri : String)
  | unloadSound (uri : String)
  | clearPlayingId
  | resetProgress
  | checkExists (uri : String)
  | alertReversedMissing
  | createSound (uri : String) (rate : ℚ)
  | setPlayingIdEv (id : String)
  | pauseSound (uri : String)
  | setRateLive (rate : ℚ)
  | tryMove (src dst : String)
  | tryCopy (src dst : String)
  | deleteFile (path : String)
  | persist
  | alertError (msg : String)
  deriving Repr, DecidableEq

/-- The sort order used by `saveNotes`: `(a, b) => b.createdAt - a.createdAt`,
i.e. `a` may come before `b` iff `b.createdAt ≤ a.createdAt`. -/
def noteLe (a b : Note) : Prop := b.createdAt ≤ a.createdAt

instance : DecidableRel noteLe := fun a b => Nat.decLe b.createdAt a.createdAt

instance : IsTotal Note noteLe := ⟨fun a b => Nat.le_total b.createdAt a.createdAt⟩

instance : IsTrans Note noteLe := ⟨fun _ _ _ hab hbc => Nat.le_trans hbc hab⟩

/-- `[...list].sort((a, b) => b.createdAt - a.createdAt)` — ECMAScript sort is
stable, so it is the stable insertion sort by `noteLe`. -/
def sortNotes (l : List Note) : List Note := List.insertionSort noteLe l

/-- `saveNotes` (`App.tsx` 69–73): sorts, replaces the in-memory list and writes the
same sorted list through to storage. -/
def saveNotes (st : AppState) (list : List Note) : AppState :=
  let sorted := sortNotes list
  { st with notes := sorted, storage := sorted }

/-- `load()`: reading the persisted collection back (`AsyncStorage.getItem` +
`JSON.parse` in the mount effect). -/
def load (st : AppState) : List Note := st.storage

/-- `FileSystem.deleteAsync(path, {idempotent: true})` on the model file system:
removes the path; a missing path is not an error (the call is total). -/
def removeFile (files : List String) (path : String) : List String :=
  files.filter (fun f => f != path)

/-- `tempUri.split(".").pop() || "m4a"`: the segment after the last dot (the whole
string when there is no dot), defaulting to `"m4a"` when that segment is empty. -/
def jsExt (tempUri : String) : String :=
  let seg := String.mk ((tempUri.data.reverse.takeWhile (fun c => c != '.')).reverse)
  if seg = "" then "m4a" else seg

/-- `duration || 0`: the recorder may hand over no usable number (`undefined`/`NaN`,
modelled as `none`), in which case `0` is stored. -/
def jsOr0 (d : Option Nat) : Nat :=
  match d with
  | none => 0
  | some n => n

/-- Environment of one `addNoteFromRecording` call: the generated `uuid.v4()`, the
`Date.now()` timestamp, and whether `moveAsync` / `copyAsync` succeed. -/
structure AddEnv where
  freshId : String
  now : Nat
  moveOk : Bool
  copyOk : Bool
  deriving Repr, DecidableEq

/-- The `Note` object literal built in `addNoteFromRecording` (`App.tsx` 99–106). -/
def mkNoteFromRecording (st : AppState) (env : AddEnv) (tempUri : String)
    (duration : Option Nat) (title : Option String) : Note :=
  { id := env.freshId
    title :=
      match title with
      | some t => if t.trim = "" then "Untitled Recording" else t.trim
      | none => "Untitled Recording"
    uri := voiceDir st ++ env.freshId ++ "." ++ jsExt tempUri
    createdAt := env.now
    duration := jsOr0 duration }

/-- `addNoteFromRecording` (`App.tsx` 86–113): move the temp file to
`VOICE_DIR + id + "." + ext` (copy-then-delete when the move throws), build the
note and prepend it via `saveNotes`.  When both move and copy throw, the outer
catch alerts and nothing is saved. -/
def addNoteFromRecording (st : AppState) (env : AddEnv) (tempUri : String)
    (duration : Option Nat) (title : Option String) : AppState × List Ev :=
  let dest := voiceDir st ++ env.freshId ++ "." ++ jsExt tempUri
  let note := mkNoteFromRecording st env tempUri duration title
  if env.moveOk then
    let st1 := { st with files := dest :: removeFile st.files tempUri }
    (saveNotes st1 (note :: st1.notes), [Ev.tryMove tempUri dest, Ev.persist])
  else if env.copyOk then
    let st1 := { st with files := dest :: removeFile st.files tempUri }
    (saveNotes st1 (note :: st1.notes),
      [Ev.tryMove tempUri dest, Ev.tryCopy tempUri dest, Ev.deleteFile tempUri, Ev.persist])
  else
    (st, [Ev.tryMove tempUri dest, Ev.tryCopy tempUri dest,
          Ev.alertError "Could not save the recording."])

/-- `n.id === id ? { ...n, title: newTitle } : n` — the per-note update of `renameNote`. -/
def renameFn (id newTitle : String) (n : Note) : Note :=
  if n.id = id then { n with title := newTitle } else n

/-- `renameNote` (`App.tsx` 115–118). -/
def renameNote (st : AppState) (id newTitle : String) : AppState × List Ev :=
  (saveNotes st (st.notes.map (renameFn id newTitle)), [Ev.persist])

/-- `deleteNote` (`App.tsx` 120–142): no-op when the id is absent; otherwise delete
the found note's file (idempotent), filter the list, persist, and — when the
deleted note is the one playing — stop/unload the sound, clear the playing id
and reset progress. -/
def deleteNote (st : AppState) (id : String) : AppState × List Ev :=
  match st.notes.find? (fun n => n.id == id) with
  | none => (st, [])
  | some note =>
    let st1 := { st with files := removeFile st.files note.uri }
    let st2 := saveNotes st1 (st1.notes.filter (fun n => n.id != id))
    if st.playingId = some id then
      ({ st2 with sound := none, playingId := none, progress := 0 },
        [Ev.deleteFile note.uri, Ev.persist]
          ++ (match st.sound with
              | some s => [Ev.stopSound s.uri, Ev.unloadSound s.uri]
              | none => [])
          ++ [Ev.clearPlayingId, Ev.resetProgress])
    else
      (st2, [Ev.deleteFile note.uri, Ev.persist])

/-- `reversedUriFor` (`App.tsx` 146–152): `null` for a falsy uri; otherwise
`uri.slice(0, i) + "_rev." + uri.slice(i + 1)` with `i = uri.lastIndexOf(".")`
(JavaScript slice semantics: with no dot, `i = -1`, so the "base" drops the last
character and the "extension" is the whole string). -/
def reversedUriFor (uri : String) : Option String :=
  if uri = "" then none
  else
    let l := uri.data
    let seg := (l.reverse.takeWhile (fun c => c != '.')).reverse
    if seg.length < l.length then
      some (String.mk (l.take (l.length - seg.length - 1) ++ "_rev.".data ++ seg))
    else
      some (String.mk (l.take (l.length - 1) ++ "_rev.".data ++ l))

/-- The first half of `playPause` (`App.tsx` 160–169): when a sound handle exists,
query its status, stop and unload it when loaded, then drop the handle, clear
the playing id and reset progress. -/
def stopCurrent (st : AppState) : AppState × List Ev :=
  match st.sound with
  | none => (st, [])
  | some s =>
    ({ st with sound := none, playingId := none, progress := 0 },
      [Ev.getStatus]
        ++ (if s.isLoaded then [Ev.stopSound s.uri, Ev.unloadSound s.uri] else [])
        ++ [Ev.clearPlayingId, Ev.resetProgress])

/-- The source-resolution half of `playPause` (`App.tsx` 171–189): with
`reverse = true` look up the `_rev` sibling; play it when it exists on disk,
otherwise alert ("Reversed file not found") and fall back to the original uri. -/
def resolveUri (files : List String) (note : Note) (rv : Bool) : String × List Ev :=
  if rv then
    match reversedUriFor note.uri with
    | some rev =>
      if files.contains rev then (rev, [Ev.checkExists rev])
      else (note.uri, [Ev.checkExists rev, Ev.alertReversedMissing])
    | none => (note.uri, [])
  else (note.uri, [])

/-- The options object of `playPause`; `requestedRate` defaults to `1.0`. -/
structure PlayOptions where
  rv : Bool := false
  requestedRate : ℚ := 1
  deriving Repr, DecidableEq

/-- `playPause` (`App.tsx` 157–219): stop whatever is loaded, resolve the uri,
create the new sound with `shouldPlay: true, rate: requestedRate`, store the
handle, set the playing id and store the rate. -/
def playPause (st : AppState) (note : Note) (opts : PlayOptions) : AppState × List Ev :=
  let stopped := stopCurrent st
  let resolved := resolveUri stopped.1.files note opts.rv
  ({ stopped.1 with
      sound := some { uri := resolved.1, isLoaded := true, rate := opts.requestedRate }
      playingId := some note.id
      rate := opts.requestedRate },
    stopped.2 ++ resolved.2
      ++ [Ev.createSound resolved.1 opts.requestedRate, Ev.setPlayingIdEv note.id])

/-- `setPlaybackSpeed` (`App.tsx` 221–230): always store the new rate; when a sound
handle exists, also re-apply it live via `setRateAsync`. -/
def setPlaybackSpeed (st : AppState) (newRate : ℚ) : AppState × List Ev :=
  match st.sound with
  | some s =>
    ({ st with rate := newRate, sound := some { s with rate := newRate } },
      [Ev.setRateLive newRate])
  | none => ({ st with rate := newRate }, [])

/-- The `onPause` callback wired in `App.tsx` 314–321: pause the sound (if any) and
clear the playing id; progress and the handle itself are untouched. -/
def onPausePress (st : AppState) : AppState × List Ev :=
  match st.sound with
  | some s => ({ st with playingId := none }, [Ev.pauseSound s.uri])
  | none => (st, [])

/-- `NoteItem.handlePlayPause` (`src/unnamed/part_000` 162–168) together with the
wiring in `App.tsx` 311–313: when this item is playing, pause; otherwise call
`onPlay({ reverse: false })`, i.e. `playPause(item, { reverse: false })` — the
`requestedRate` option is left at its default `1.0`. -/
def handlePlayPause (st : AppState) (note : Note) : AppState × List Ev :=
  if st.playingId = some note.id then onPausePress st
  else playPause st note {}

/-- The `requestPlay` callback (`App.tsx` 331): `playPause(item, { reverse,
requestedRate: rate })` — this wiring does pass the stored rate. -/
def requestPlay (st : AppState) (note : Note) (rv : Bool) : AppState × List Ev :=
  playPause st note { rv := rv, requestedRate := st.rate }

/-- Boolean list-prefix test (used to embed JavaScript `String.includes`). -/
def isPrefixB : List Char → List Char → Bool
  | [], _ => true
  | _ :: _, [] => false
  | a :: l, b :: m => a == b && isPrefixB l m

/-- `s.includes(pat)`. -/
def strIncludes (s pat : String) : Bool :=
  s.data.tails.any (fun t => isPrefixB pat.data t)

/-- The outcome of `DocumentPicker.getDocumentAsync` + read + `JSON.parse` in
`restore`: either the user cancelled, or a parsed array of note records. -/
inductive PickResult where
  | cancelled
  | picked (imported : List Note)
  deriving Repr, DecidableEq

/-- `imported.filter((i) => i.uri && i.uri.includes("voiceNotes/"))`. -/
def restoreValid (imported : List Note) : List Note :=
  imported.filter (fun i => i.uri != "" && strIncludes i.uri "voiceNotes/")

/-- `restore` (`App.tsx` 252–270): a cancelled pick returns early; otherwise the
accepted entries are put in front of the existing notes and the concatenation is
handed to `saveNotes` (which sorts it). -/
def restore (st : AppState) (res : PickResult) : AppState × List Ev :=
  match res with
  | PickResult.cancelled => (st, [])
  | PickResult.picked imported =>
    (saveNotes st (restoreValid imported ++ st.notes), [Ev.persist])

/-- Change in the number of loaded sounds caused by one event. -/
def loadDelta (n : Nat) : Ev → Nat
  | Ev.unloadSound _ => n - 1
  | Ev.createSound _ _ => n + 1
  | _ => n

/-- Maximum number of simultaneously loaded sounds over every prefix of a trace,
starting from `n` loaded sounds. -/
def maxLoaded (n : Nat) : List Ev → Nat
  | [] => n
  | e :: l => max n (maxLoaded (loadDelta n e) l)

/-- Number of sounds loaded before a `playPause` call: one iff the held handle is
in the loaded state. -/
def initLoaded (st : AppState) : Nat :=
  match st.sound with
  | some s => if s.isLoaded then 1 else 0
  | none => 0

theorem sortNotes_sorted (l : List Note) : List.Sorted noteLe (sortNotes l) :=
  List.sorted_insertionSort noteLe l

theorem sortNotes_perm (l : List Note) : (sortNotes l).Perm l :=
  List.perm_insertionSort noteLe l

theorem mem_sortNotes {a : Note} {l : List Note} : a ∈ sortNotes l ↔ a ∈ l :=
  (sortNotes_perm l).mem_iff

theorem pairwise_and {α : Type} {R S : α → α → Prop} :
    ∀ {l : List α}, l.Pairwise R → l.Pairwise S → l.Pairwise fun a b => R a b ∧ S a b
  | [], _, _ => List.Pairwise.nil
  | _ :: _, List.Pairwise.cons hr hR, List.Pairwise.cons hs hS =>
    List.Pairwise.cons (fun b hb => ⟨hr b hb, hs b hb⟩) (pairwise_and hR hS)

/-- Reusable core of claim C2: `saveNotes` always leaves `notes` sorted by
`createdAt` descending, equal to the persisted list, and a permutation of its
argument; distinct timestamps give a strictly descending list. -/
theorem saveNotes_spec (st : AppState) (l : List Note) :
    List.Sorted noteLe (saveNotes st l).notes
      ∧ (saveNotes st l).storage = (saveNotes st l).notes
      ∧ ((saveNotes st l).notes).Perm l
      ∧ (l.Pairwise (fun a b => a.createdAt ≠ b.createdAt) →
          ((saveNotes st l).notes).Pairwise fun a b => b.createdAt < a.createdAt) := by
  refine ⟨sortNotes_sorted l, rfl, sortNotes_perm l, fun hne => ?_⟩
  have hne' : (sortNotes l).Pairwise fun a b => a.createdAt ≠ b.createdAt :=
    ((sortNotes_perm l).pairwise_iff fun h => h.symm).2 hne
  exact (pairwise_and (sortNotes_sorted l) hne').imp fun h =>
    Nat.lt_of_le_of_ne h.1 h.2.symm

/-- C2: every mutation that goes through `saveNotes` — `addNoteFromRecording`
(when the move or the copy succeeds), `renameNote`, `deleteNote` (when the id is
present) and `restore` of a picked file — leaves the in-memory note list sorted
by `createdAt` descending (newest first, ties kept in stable order; with
pairwise-distinct timestamps the order is strictly descending, witnessed by the
last conjunct of `saveNotes_spec`), and the persisted list equals it. -/
theorem save_mutations_sorted (st : AppState) (l : List Note) (env : AddEnv)
    (u : String) (d : Option Nat) (t : Option String) (rid did newTitle : String)
    (imp : List Note)
    (hadd : env.moveOk = true ∨ env.copyOk = true)
    (hdel : ∃ n ∈ st.notes, n.id = did) :
    (List.Sorted noteLe (saveNotes st l).notes
        ∧ (saveNotes st l).storage = (saveNotes st l).notes)
      ∧ List.Sorted noteLe ((addNoteFromRecording st env u d t).1.notes)
      ∧ List.Sorted noteLe ((renameNote st rid newTitle).1.notes)
      ∧ List.Sorted noteLe ((deleteNote st did).1.notes)
      ∧ List.Sorted noteLe ((restore st (PickResult.picked imp)).1.notes) := by
  refine ⟨⟨sortNotes_sorted l, rfl⟩, ?_, ?_, ?_, ?_⟩
  · unfold addNoteFromRecording
    rcases hadd with h | h
    · simp only [h, if_true]
      exact sortNotes_sorted _
    · by_cases hm : env.moveOk = true
      · simp only [hm, if_true]
        exact sortNotes_sorted _
      · simp only [Bool.not_eq_true] at hm
        simp only [hm, h, Bool.false_eq_true, if_false, if_true]
        exact sortNotes_sorted _
  · unfold renameNote
    exact sortNotes_sorted _
  · unfold deleteNote
    obtain ⟨n, hn, hnid⟩ := hdel
    have hsome : (st.notes.find? fun n => n.id == did).isSome = true :=
      List.find?_isSome.2 ⟨n, hn, by simp [hnid]⟩
    cases hfind : st.notes.find? fun n => n.id == did with
    | none => rw [hfind] at hsome; simp at hsome
    | some note =>
      simp only [hfind]
      by_cases hp : st.playingId = some did
      · simp only [hp, if_true]
        exact sortNotes_sorted _
      · simp only [hp, if_false]
        exact sortNotes_sorted _
  · unfold restore
    exact sortNotes_sorted _

/-- Fixture: an existing note. -/
def noteX : Note :=
  { id := "x", title := "X", uri := "d/voiceNotes/x.m4a", createdAt := 10, duration := 2 }

/-- Fixture: a second note (newer). -/
def noteA : Note :=
  { id := "a", title := "A", uri := "d/voiceNotes/a.m4a", createdAt := 30, duration := 5 }

/-- Fixture: an app state holding `noteX`, nothing playing. -/
def stW : AppState :=
  { docDir := "d/", notes := [noteX], storage := [noteX], files := [noteX.uri],
    sound := none, playingId := none, progress := 0, rate := 1 }

/-- Fixture: an add environment where the move succeeds. -/
def envW : AddEnv := { freshId := "f", now := 9, moveOk := true, copyOk := true }

/-- Witness for `save_mutations_sorted` at a concrete state. -/
theorem save_mutations_sorted_witness :
    (List.Sorted noteLe (saveNotes stW [noteA]).notes
        ∧ (saveNotes stW [noteA]).storage = (saveNotes stW [noteA]).notes)
      ∧ List.Sorted noteLe ((addNoteFromRecording stW envW "t.m4a" (some 4) none).1.notes)
      ∧ List.Sorted noteLe ((renameNote stW "x" "T").1.notes)
      ∧ List.Sorted noteLe ((deleteNote stW "x").1.notes)
      ∧ List.Sorted noteLe ((restore stW (PickResult.picked [noteA])).1.notes) :=
  save_mutations_sorted stW [noteA] envW "t.m4a" (some 4) none "x" "x" "T" [noteA]
    (Or.inl rfl) ⟨noteX, by simp [stW], rfl⟩

/-- C9: `renameNote st id t` produces (up to the re-sort done by `saveNotes`)
exactly the element-wise update `renameFn id t`: that update changes at most the
`title` of notes whose id matches (their `id`, `uri`, `createdAt` are untouched)
and leaves every other note identical; when no note has the id, the list is
unchanged up to re-sorting; the result is persisted via `saveNotes`. -/
theorem rename_frame (st : AppState) (id t : String) :
    ((renameNote st id t).1.notes).Perm (st.notes.map (renameFn id t))
      ∧ (∀ n : Note,
          (renameFn id t n).id = n.id
            ∧ (renameFn id t n).uri = n.uri
            ∧ (renameFn id t n).createdAt = n.createdAt
            ∧ (n.id ≠ id → renameFn id t n = n)
            ∧ (n.id = id → (renameFn id t n).title = t))
      ∧ ((∀ n ∈ st.notes, n.id ≠ id) → ((renameNote st id t).1.notes).Perm st.notes)
      ∧ (renameNote st id t).1.storage = (renameNote st id t).1.notes := by
  refine ⟨sortNotes_perm _, fun n => ?_, fun habs => ?_, rfl⟩
  · unfold renameFn
    by_cases h : n.id = id
    · simp [h]
    · simp [h]
  · have hmap : st.notes.map (renameFn id t) = st.notes := by
      have : st.notes.map (renameFn id t) = st.notes.map (fun n => n) :=
        List.map_congr_left fun n hn => by simp [renameFn, habs n hn]
      simpa using this
    show (sortNotes (st.notes.map (renameFn id t))).Perm st.notes
    rw [hmap]
    exact sortNotes_perm _

/-- Witness for `rename_frame`: renaming an absent id in the fixture state. -/
theorem rename_frame_witness :
    (((renameNote stW "zz" "T").1.notes).Perm (stW.notes.map (renameFn "zz" "T"))
        ∧ (∀ n : Note,
            (renameFn "zz" "T" n).id = n.id
              ∧ (renameFn "zz" "T" n).uri = n.uri
              ∧ (renameFn "zz" "T" n).createdAt = n.createdAt
              ∧ (n.id ≠ "zz" → renameFn "zz" "T" n = n)
              ∧ (n.id = "zz" → (renameFn "zz" "T" n).title = "T"))
        ∧ ((∀ n ∈ stW.notes, n.id ≠ "zz") → ((renameNote stW "zz" "T").1.notes).Perm stW.notes)
        ∧ (renameNote stW "zz" "T").1.storage = (renameNote stW "zz" "T").1.notes)
      ∧ (∀ n ∈ stW.notes, n.id ≠ "zz") :=
  ⟨rename_frame stW "zz" "T", by decide⟩

/-- C10: deleting an id that no note carries is a complete no-op — state
(including the note list, persisted list, file system and playback fields)
unchanged, and no side effect (no file deletion, no persist) performed. -/
theorem delete_absent_noop (st : AppState) (id : String)
    (h : ∀ n ∈ st.notes, n.id ≠ id) :
    deleteNote st id = (st, []) := by
  unfold deleteNote
  have hnone : (st.notes.find? fun n => n.id == id) = none :=
    List.find?_eq_none.2 fun n hn => by simp [h n hn]
  rw [hnone]

/-- Witness for `delete_absent_noop` at the fixture state. -/
theorem delete_absent_noop_witness :
    (∀ n ∈ stW.notes, n.id ≠ "zz") ∧ deleteNote stW "zz" = (stW, []) :=
  ⟨by decide, delete_absent_noop stW "zz" (by decide)⟩

/-- C3: when `deleteNote st id` finds a note (the id is present), the resulting
in-memory list and the persisted list (what a subsequent `load` returns) contain
no note with that id, the found note's file is gone from the file system (the
model delete is total, so a missing file is not an error), a file deletion was
performed as part of the operation's trace, and — when that id was the one
playing — the sound handle is released, the playing id cleared and progress
reset to 0, all in the same operation. -/
theorem delete_removes (st : AppState) (id : String) (note : Note)
    (hfind : (st.notes.find? fun n => n.id == id) = some note) :
    (∀ n ∈ (deleteNote st id).1.notes, n.id ≠ id)
      ∧ (∀ n ∈ load (deleteNote st id).1, n.id ≠ id)
      ∧ note.uri ∉ (deleteNote st id).1.files
      ∧ Ev.deleteFile note.uri ∈ (deleteNote st id).2
      ∧ (st.playingId = some id →
          (deleteNote st id).1.sound = none
            ∧ (deleteNote st id).1.playingId = none
            ∧ (deleteNote st id).1.progress = 0) := by
  have hmem :
      ∀ n ∈ sortNotes (st.notes.filter fun n => n.id != id), n.id ≠ id := by
    intro n hn
    have := mem_sortNotes.1 hn
    have := (List.mem_filter.1 this).2
    simpa [bne_iff_ne] using this
  have hfiles : note.uri ∉ removeFile st.files note.uri := by
    intro hmem'
    have := (List.mem_filter.1 hmem').2
    simp at this
  unfold deleteNote
  rw [hfind]
  dsimp only
  by_cases hp : st.playingId = some id
  · rw [if_pos hp]
    exact ⟨hmem, hmem, hfiles, by simp, fun _ => ⟨rfl, rfl, rfl⟩⟩
  · rw [if_neg hp]
    exact ⟨hmem, hmem, hfiles, by simp, fun h => absurd h hp⟩

/-- Witness for `delete_removes`: deleting `noteX` from the fixture state. -/
theorem delete_removes_witness :
    ((stW.notes.find? fun n => n.id == "x") = some noteX)
      ∧ ((∀ n ∈ (deleteNote stW "x").1.notes, n.id ≠ "x")
          ∧ (∀ n ∈ load (deleteNote stW "x").1, n.id ≠ "x")
          ∧ noteX.uri ∉ (deleteNote stW "x").1.files
          ∧ Ev.deleteFile noteX.uri ∈ (deleteNote stW "x").2
          ∧ (stW.playingId = some "x" →
              (deleteNote stW "x").1.sound = none
                ∧ (deleteNote stW "x").1.playingId = none
                ∧ (deleteNote stW "x").1.progress = 0)) :=
  ⟨by decide, delete_removes stW "x" noteX (by decide)⟩

theorem stopCurrent_files (st : AppState) : (stopCurrent st).1.files = st.files := by
  cases h : st.sound <;> simp [stopCurrent, h]

theorem resolveUri_cases (files : List String) (note : Note) (rv : Bool) :
    (resolveUri files note rv).2 = []
      ∨ (∃ r, (resolveUri files note rv).2 = [Ev.checkExists r])
      ∨ (∃ r, (resolveUri files note rv).2 = [Ev.checkExists r, Ev.alertReversedMissing]) := by
  cases rv with
  | false => left; simp [resolveUri]
  | true =>
    cases h : reversedUriFor note.uri with
    | none => left; simp [resolveUri, h]
    | some rev =>
      cases hc : files.contains rev with
      | true =>
        right; left
        have hm : rev ∈ files := by simpa using hc
        exact ⟨rev, by simp [resolveUri, h, hm]⟩
      | false =>
        right; right
        have hm : rev ∉ files := by simpa using hc
        exact ⟨rev, by simp [resolveUri, h, hm]⟩

/-- C1: calling `playPause` on note B while a sound for some note A is loaded
first queries the old handle, stops and unloads it, drops the handle, clears the
playing id and resets progress to 0 — and only then (after at most a
file-existence check and a fallback alert, which touch no sound) creates the
sound for B.  Counting loaded sounds along the whole event trace starting from
the one loaded sound never exceeds one: at no point are two sounds loaded. -/
theorem playPause_stops_before_load (st : AppState) (note : Note) (opts : PlayOptions)
    (s : Sound) (hs : st.sound = some s) (hl : s.isLoaded = true) :
    ∃ mid,
      (playPause st note opts).2
          = [Ev.getStatus, Ev.stopSound s.uri, Ev.unloadSound s.uri,
              Ev.clearPlayingId, Ev.resetProgress]
            ++ mid
            ++ [Ev.createSound (resolveUri st.files note opts.rv).1 opts.requestedRate,
                Ev.setPlayingIdEv note.id]
        ∧ (mid = [] ∨ (∃ r, mid = [Ev.checkExists r])
            ∨ (∃ r, mid = [Ev.checkExists r, Ev.alertReversedMissing]))
        ∧ maxLoaded 1 ((playPause st note opts).2) ≤ 1
        ∧ (playPause st note opts).1.sound
            = some { uri := (resolveUri st.files note opts.rv).1, isLoaded := true,
                      rate := opts.requestedRate } := by
  have htr : (playPause st note opts).2
      = [Ev.getStatus, Ev.stopSound s.uri, Ev.unloadSound s.uri,
          Ev.clearPlayingId, Ev.resetProgress]
        ++ (resolveUri st.files note opts.rv).2
        ++ [Ev.createSound (resolveUri st.files note opts.rv).1 opts.requestedRate,
            Ev.setPlayingIdEv note.id] := by
    simp [playPause, stopCurrent, hs, hl]
  refine ⟨(resolveUri st.files note opts.rv).2, htr,
    resolveUri_cases st.files note opts.rv, ?_, ?_⟩
  · rw [htr]
    rcases resolveUri_cases st.files note opts.rv with h | ⟨r, h⟩ | ⟨r, h⟩ <;>
      rw [h] <;> simp [maxLoaded, loadDelta]
  · simp [playPause, stopCurrent, hs, hl]

/-- Fixture: a loaded sound for `noteA`. -/
def sndA : Sound := { uri := noteA.uri, isLoaded := true, rate := 1 }

/-- Fixture: app state in which `noteA` is playing. -/
def stPlaying : AppState :=
  { docDir := "d/", notes := [noteX, noteA], storage := [noteX, noteA],
    files := [noteX.uri, noteA.uri], sound := some sndA, playingId := some "a",
    progress := 0, rate := 1 }

/-- Witness for `playPause_stops_before_load`: starting `noteX` while `noteA`
is loaded. -/
theorem playPause_stops_before_load_witness :
    stPlaying.sound = some sndA
      ∧ sndA.isLoaded = true
      ∧ maxLoaded 1 ((playPause stPlaying noteX {}).2) ≤ 1
      ∧ (playPause stPlaying noteX {}).1.sound
          = some { uri := (resolveUri stPlaying.files noteX false).1,
                    isLoaded := true, rate := 1 } := by
  obtain ⟨mid, _, _, h3, h4⟩ :=
    playPause_stops_before_load stPlaying noteX {} sndA rfl rfl
  exact ⟨rfl, rfl, h3, h4⟩

/-- C5: for a note whose uri yields a conventional `_rev` sibling name
(`reversedUriFor note.uri = some rev`, which holds exactly when the uri is a
non-empty string), requesting reverse playback while that sibling does not exist
on disk surfaces the "Reversed file not found" alert and then creates the sound
from the original uri (forward playback) — the alert strictly precedes the
single `createSound` in the trace, the number of loaded sounds never exceeds
one, and the call completes normally with the original uri loaded. -/
theorem playPause_reverse_fallback (st : AppState) (note : Note) (r : ℚ) (rev : String)
    (hrev : reversedUriFor note.uri = some rev)
    (hmiss : st.files.contains rev = false) :
    ∃ pre,
      (playPause st note { rv := true, requestedRate := r }).2
          = pre ++ [Ev.checkExists rev, Ev.alertReversedMissing,
                    Ev.createSound note.uri r, Ev.setPlayingIdEv note.id]
        ∧ maxLoaded (initLoaded st) ((playPause st note { rv := true, requestedRate := r }).2) ≤ 1
        ∧ (playPause st note { rv := true, requestedRate := r }).1.sound
            = some { uri := note.uri, isLoaded := true, rate := r }
        ∧ (playPause st note { rv := true, requestedRate := r }).1.playingId = some note.id := by
  have hm : rev ∉ st.files := by simpa using hmiss
  have htr : (playPause st note { rv := true, requestedRate := r }).2
      = (stopCurrent st).2
        ++ [Ev.checkExists rev, Ev.alertReversedMissing,
            Ev.createSound note.uri r, Ev.setPlayingIdEv note.id] := by
    simp [playPause, resolveUri, hrev, stopCurrent_files, hm]
  refine ⟨(stopCurrent st).2, htr, ?_, ?_, ?_⟩
  · rw [htr]
    cases hsnd : st.sound with
    | none => simp [stopCurrent, hsnd, initLoaded, maxLoaded, loadDelta]
    | some s =>
      cases hl : s.isLoaded <;>
        simp [stopCurrent, hsnd, hl, initLoaded, maxLoaded, loadDelta]
  · simp [playPause, resolveUri, hrev, stopCurrent_files, hm]
  · simp [playPause]

/-- Witness for `playPause_reverse_fallback`: reverse-play of `noteX` whose
`_rev` sibling `d/voiceNotes/x_rev.m4a` is not among the files. -/
theorem playPause_reverse_fallback_witness :
    reversedUriFor noteX.uri = some "d/voiceNotes/x_rev.m4a"
      ∧ stPlaying.files.contains "d/voiceNotes/x_rev.m4a" = false
      ∧ (playPause stPlaying noteX { rv := true, requestedRate := 2 }).1.sound
          = some { uri := noteX.uri, isLoaded := true, rate := 2 } := by
  obtain ⟨pre, _, _, h3, _⟩ :=
    playPause_reverse_fallback stPlaying noteX 2 "d/voiceNotes/x_rev.m4a"
      (by decide) (by decide)
  exact ⟨by decide, by decide, h3⟩

/-- C6 counterexample: in the fixture state (nothing loaded, rate stored as 1),
call `setPlaybackSpeed 2` and then press the item's play control
(`NoteItem.handlePlayPause`, which calls `onPlay({reverse: false})`, i.e.
`playPause(item, {reverse: false})`).  The sound is created with rate 1 — the
stored rate 2 is NOT used, because the play control never forwards it and
`playPause`'s `requestedRate` option defaults to `1.0`; so the claim "begins
playback at rate 2.0" is false at this input. -/
theorem rate_not_forwarded_cex :
    (setPlaybackSpeed stW 2).1.rate = 2
      ∧ (handlePlayPause (setPlaybackSpeed stW 2).1 noteX).1.sound
          = some { uri := noteX.uri, isLoaded := true, rate := 1 }
      ∧ (handlePlayPause (setPlaybackSpeed stW 2).1 noteX).1.sound
          ≠ some { uri := noteX.uri, isLoaded := true, rate := 2 } := by
  refine ⟨by decide, by decide, by decide⟩

/-- C6 amended: `setPlaybackSpeed 2` while nothing is loaded stores rate 2, but
playback started through the item's play control begins at the default rate 1
(the stored rate is not forwarded by that control); the stored rate is used
only by the `requestPlay` wiring (the reverse-play control), which does start
playback at rate 2. -/
theorem rate_wiring (st : AppState) (note : Note)
    (hsnd : st.sound = none) (hpid : st.playingId ≠ some note.id) :
    (setPlaybackSpeed st 2).1.rate = 2
      ∧ (handlePlayPause (setPlaybackSpeed st 2).1 note).1.sound
          = some { uri := note.uri, isLoaded := true, rate := 1 }
      ∧ (requestPlay (setPlaybackSpeed st 2).1 note false).1.sound
          = some { uri := note.uri, isLoaded := true, rate := 2 } := by
  have h1 : (setPlaybackSpeed st 2).1 = { st with rate := 2 } := by
    simp [setPlaybackSpeed, hsnd]
  refine ⟨by rw [h1], ?_, ?_⟩
  · rw [h1]
    simp [handlePlayPause, hpid, playPause, stopCurrent, hsnd, resolveUri]
  · rw [h1]
    simp [requestPlay, playPause, stopCurrent, hsnd, resolveUri]

/-- Witness for `rate_wiring` at the fixture state and `noteX`. -/
theorem rate_wiring_witness :
    stW.sound = none
      ∧ stW.playingId ≠ some noteX.id
      ∧ (setPlaybackSpeed stW 2).1.rate = 2
      ∧ (handlePlayPause (setPlaybackSpeed stW 2).1 noteX).1.sound
          = some { uri := noteX.uri, isLoaded := true, rate := 1 }
      ∧ (requestPlay (setPlaybackSpeed stW 2).1 noteX false).1.sound
          = some { uri := noteX.uri, isLoaded := true, rate := 2 } := by
  obtain ⟨h1, h2, h3⟩ := rate_wiring stW noteX rfl (by decide)
  exact ⟨rfl, by decide, h1, h2, h3⟩

/-- Fixture: an importable entry inside the managed directory, but older
(`createdAt 1`) than the pre-existing `noteX` (`createdAt 10`). -/
def impGood : Note :=
  { id := "a1", title := "imported", uri := "doc/voiceNotes/abc.m4a", createdAt := 1,
    duration := 0 }

/-- Fixture: an entry outside the managed directory. -/
def impBad : Note :=
  { id := "b1", title := "other", uri := "/tmp/other.m4a", createdAt := 50, duration := 0 }

/-- C4 counterexample: importing `[impGood, impBad]` into the fixture state
(whose only note is `noteX`) merges exactly one entry (`impGood`, the one whose
uri contains "voiceNotes/"), but because `restore` hands the concatenation to
`saveNotes`, which re-sorts by `createdAt` descending, the final list is
`[noteX, impGood]`: the accepted entry is NOT placed ahead of the pre-existing
entry, refuting the claim's "places the accepted entries ahead of all
pre-existing entries". -/
theorem restore_prepend_cex :
    stW.notes = [noteX]
      ∧ (restore stW (PickResult.picked [impGood, impBad])).1.notes = [noteX, impGood]
      ∧ ([noteX, impGood] : List Note) ≠ [impGood, noteX] :=
  ⟨by decide, by decide, by decide⟩

/-- C4 amended: `restore` of a picked file keeps exactly the imported entries
whose `uri` is non-empty and contains the marker "voiceNotes/", concatenates
the accepted entries ahead of the pre-existing entries, and persists that
concatenation through `saveNotes` — so the final, persisted list is the
concatenation stably sorted by `createdAt` descending (ordered by timestamp,
not import-first).  No id-based de-duplication happens (the length is the sum
of both parts even when ids collide), and a cancelled pick leaves the state
unchanged with no side effect. -/
theorem restore_spec (st : AppState) (imp : List Note) :
    restore st PickResult.cancelled = (st, [])
      ∧ (restore st (PickResult.picked imp)).1.notes
          = sortNotes
              ((imp.filter fun i => i.uri != "" && strIncludes i.uri "voiceNotes/")
                ++ st.notes)
      ∧ (restore st (PickResult.picked imp)).1.storage
          = (restore st (PickResult.picked imp)).1.notes
      ∧ ((restore st (PickResult.picked imp)).1.notes).Perm
          ((imp.filter fun i => i.uri != "" && strIncludes i.uri "voiceNotes/")
            ++ st.notes)
      ∧ ((restore st (PickResult.picked imp)).1.notes).length
          = (imp.filter fun i => i.uri != "" && strIncludes i.uri "voiceNotes/").length
              + st.notes.length := by
  refine ⟨rfl, rfl, rfl, sortNotes_perm _, ?_⟩
  have := (sortNotes_perm
    ((imp.filter fun i => i.uri != "" && strIncludes i.uri "voiceNotes/")
      ++ st.notes)).length_eq
  rw [List.length_append] at this
  exact this

theorem takeWhile_append_stop {p : Char → Bool} :
    ∀ (l₁ : List Char) (c : Char) (l₂ : List Char),
      (∀ a ∈ l₁, p a = true) → p c = false →
      (l₁ ++ c :: l₂).takeWhile p = l₁ := by
  intro l₁ c l₂ h hc
  induction l₁ with
  | nil => simp [List.takeWhile_cons, hc]
  | cons a l ih =>
    have ha : p a = true := h a (List.mem_cons_self a l)
    simp only [List.cons_append, List.takeWhile_cons, ha, if_true]
    rw [ih fun x hx => h x (List.mem_cons_of_mem a hx)]

/-- When the temporary uri has a well-formed extension (`base ++ "." ++ e` with
`e` non-empty and dot-free), `split(".").pop() || "m4a"` returns exactly `e`. -/
theorem jsExt_of_ext (base e : String) (he : e ≠ "")
    (hdot : ∀ c ∈ e.data, c ≠ '.') :
    jsExt (base ++ "." ++ e) = e := by
  obtain ⟨le⟩ := e
  have hdata : (base ++ "." ++ String.mk le).data = base.data ++ '.' :: le := by
    simp [String.data_append]
  have hrev : (base.data ++ '.' :: le).reverse
      = le.reverse ++ '.' :: base.data.reverse := by
    simp
  have htw : (le.reverse ++ '.' :: base.data.reverse).takeWhile (fun c => c != '.')
      = le.reverse := by
    refine takeWhile_append_stop le.reverse '.' base.data.reverse ?_ (by simp)
    intro a ha
    have : a ∈ le := List.mem_reverse.1 ha
    simpa using hdot a this
  unfold jsExt
  rw [hdata, hrev, htw, List.reverse_reverse]
  have : String.mk le ≠ "" := he
  rw [if_neg this]

/-- C7: a successful `addNoteFromRecording` (the move or the copy succeeds) adds
the constructed note to the list; that note stores the handed-over duration
(`0` when the recorder hands over nothing usable), defaults the title to
"Untitled Recording" when no title or a blank title is given, carries the
generated id, and its uri is `VOICE_DIR + id + "." + ext` inside the managed
`voiceNotes/` directory, where `ext` is exactly the temporary file's extension
whenever it has a well-formed one. -/
theorem add_note_fields (st : AppState) (env : AddEnv) (tempUri : String)
    (d : Option Nat) (t : Option String) (base e : String)
    (hok : env.moveOk = true ∨ env.copyOk = true)
    (hext : tempUri = base ++ "." ++ e) (he : e ≠ "")
    (hdot : ∀ c ∈ e.data, c ≠ '.') :
    mkNoteFromRecording st env tempUri d t ∈ (addNoteFromRecording st env tempUri d t).1.notes
      ∧ (mkNoteFromRecording st env tempUri d t).duration = jsOr0 d
      ∧ (∀ n : Nat, d = some n → (mkNoteFromRecording st env tempUri d t).duration = n)
      ∧ (t = none → (mkNoteFromRecording st env tempUri d t).title = "Untitled Recording")
      ∧ (∀ s, t = some s → s.trim = "" →
          (mkNoteFromRecording st env tempUri d t).title = "Untitled Recording")
      ∧ (mkNoteFromRecording st env tempUri d t).id = env.freshId
      ∧ (mkNoteFromRecording st env tempUri d t).uri
          = voiceDir st ++ env.freshId ++ "." ++ jsExt tempUri
      ∧ voiceDir st = st.docDir ++ "voiceNotes/"
      ∧ jsExt tempUri = e := by
  refine ⟨?_, rfl, ?_, ?_, ?_, rfl, rfl, rfl, ?_⟩
  · unfold addNoteFromRecording
    rcases hok with h | h
    · simp only [h, if_true]
      exact mem_sortNotes.2 (List.mem_cons_self _ _)
    · by_cases hmv : env.moveOk = true
      · simp only [hmv, if_true]
        exact mem_sortNotes.2 (List.mem_cons_self _ _)
      · simp only [Bool.not_eq_true] at hmv
        simp only [hmv, h, Bool.false_eq_true, if_false, if_true]
        exact mem_sortNotes.2 (List.mem_cons_self _ _)
  · intro n hn
    simp [mkNoteFromRecording, hn, jsOr0]
  · intro hn
    simp [mkNoteFromRecording, hn]
  · intro s hs htrim
    simp [mkNoteFromRecording, hs, htrim]
  · rw [hext]
    exact jsExt_of_ext base e he hdot

/-- Witness for `add_note_fields`: the spec scenario — temp file `tmp/rec1.m4a`,
duration 4200, no title. -/
theorem add_note_fields_witness :
    (envW.moveOk = true ∨ envW.copyOk = true)
      ∧ ("tmp/rec1.m4a" : String) = "tmp/rec1" ++ "." ++ "m4a"
      ∧ mkNoteFromRecording stW envW "tmp/rec1.m4a" (some 4200) none
          ∈ (addNoteFromRecording stW envW "tmp/rec1.m4a" (some 4200) none).1.notes
      ∧ (mkNoteFromRecording stW envW "tmp/rec1.m4a" (some 4200) none).duration = 4200
      ∧ (mkNoteFromRecording stW envW "tmp/rec1.m4a" (some 4200) none).title
          = "Untitled Recording"
      ∧ (mkNoteFromRecording stW envW "tmp/rec1.m4a" (some 4200) none).uri
          = voiceDir stW ++ envW.freshId ++ "." ++ jsExt "tmp/rec1.m4a"
      ∧ jsExt "tmp/rec1.m4a" = "m4a" := by
  obtain ⟨h1, _, h3, h4, _, _, h7, _, h9⟩ :=
    add_note_fields stW envW "tmp/rec1.m4a" (some 4200) none "tmp/rec1" "m4a"
      (Or.inl rfl) (by decide) (by decide) (by decide)
  exact ⟨Or.inl rfl, by decide, h1, h3 4200 rfl, h4 rfl, h7, h9⟩

/-- Fixture: an add environment where both the move and the copy fail. -/
def envFail : AddEnv := { freshId := "f", now := 9, moveOk := false, copyOk := false }

/-- C8: when the move fails, `addNoteFromRecording` attempts the copy fallback
before anything else is decided: with a succeeding copy the trace is exactly
move-attempt, copy-attempt, deletion of the temporary file, persist; with a
failing copy the trace is move-attempt, copy-attempt, failure alert — and in
that case the returned state is the input state unchanged (no note added in
memory or in storage, no file touched). -/
theorem add_note_move_failure (st : AppState) (env : AddEnv) (tempUri : String)
    (d : Option Nat) (t : Option String) (hm : env.moveOk = false) :
    (env.copyOk = true →
        (addNoteFromRecording st env tempUri d t).2
          = [Ev.tryMove tempUri (voiceDir st ++ env.freshId ++ "." ++ jsExt tempUri),
              Ev.tryCopy tempUri (voiceDir st ++ env.freshId ++ "." ++ jsExt tempUri),
              Ev.deleteFile tempUri, Ev.persist])
      ∧ (env.copyOk = false →
          (addNoteFromRecording st env tempUri d t).1 = st
            ∧ (addNoteFromRecording st env tempUri d t).2
                = [Ev.tryMove tempUri (voiceDir st ++ env.freshId ++ "." ++ jsExt tempUri),
                    Ev.tryCopy tempUri (voiceDir st ++ env.freshId ++ "." ++ jsExt tempUri),
                    Ev.alertError "Could not save the recording."]) := by
  constructor
  · intro hc
    simp [addNoteFromRecording, hm, hc]
  · intro hc
    constructor
    · simp [addNoteFromRecording, hm, hc]
    · simp [addNoteFromRecording, hm, hc]

/-- Witness for `add_note_move_failure`: both move and copy fail in `envFail`. -/
theorem add_note_move_failure_witness :
    envFail.moveOk = false
      ∧ envFail.copyOk = false
      ∧ (addNoteFromRecording stW envFail "tmp/rec1.m4a" (some 4200) none).1 = stW
      ∧ (addNoteFromRecording stW envFail "tmp/rec1.m4a" (some 4200) none).2
          = [Ev.tryMove "tmp/rec1.m4a" (voiceDir stW ++ envFail.freshId ++ "." ++ jsExt "tmp/rec1.m4a"),
              Ev.tryCopy "tmp/rec1.m4a" (voiceDir stW ++ envFail.freshId ++ "." ++ jsExt "tmp/rec1.m4a"),
              Ev.alertError "Could not save the recording."] := by
  obtain ⟨_, h2⟩ :=
    add_note_move_failure stW envFail "tmp/rec1.m4a" (some 4200) none rfl
  obtain ⟨h21, h22⟩ := h2 rfl
  exact ⟨rfl, rfl, h21, h22⟩

end VoiceJournal
